import Mathlib

/-!
# Verification of the bulk monthly billing generation and aggregation core

Shallow embedding of the `ipl-be-svc` repository's billing core:
data model from `internal/models`, repository queries from
`internal/repository/billing_repository.go`, HTTP dispatch and validation
from `internal/handler/billing_handler.go` and `menu_handler.go`, and the
service-layer generator/aggregator (whose Go source is not among the
provided files) modelled from the specification.
-/

/-- Billing row (`internal/models/models.go`, `Billing`): the columns the
bulk flow constructs and persists (`bulan`, `tahun`, `nominal`); nullable
Go pointer fields become `Option`. -/
structure Billing where
  bulan : Option Int
  tahun : Option Int
  nominal : Option Int
deriving DecidableEq

/-- Modelled from the spec: `models.BillingProfileLink` is referenced by the
repository interface but its definition is not among the provided sources;
per the spec it associates a generated billing to the user's profile
identifier. -/
structure BillingProfileLink where
  profileId : Nat
deriving DecidableEq

/-- Modelled from the spec: `models.SettingBilling` is not among the provided
sources; its fields are the columns the repository query filters on
(`jenis_billing`, `is_active`, `published_at`, see
`billing_repository.go:63`) plus the nominal amount the spec says a setting
defines. Nullable columns are `Option`; the timestamp is abstracted to a
`Nat` instant. -/
structure SettingBilling where
  id : Nat
  jenisBilling : Option String
  isActive : Option Bool
  publishedAt : Option Nat
  nominal : Option Int
deriving DecidableEq

/-- Row of the `up_users` table: only the identifier is relevant to the
billing core (`models.User` is not among the provided sources; the
repository query selects user rows by id join). -/
structure UserRow where
  id : Nat
deriving DecidableEq

/-- Row of the `up_users_role_lnk` link table joined by
`GetUsersWithPenghuniRole`. -/
structure UserRoleLink where
  userId : Nat
  roleId : Nat
deriving DecidableEq

/-- Row of the `up_roles` table (`models.go`, `Role`): identifier and the
nullable `type` column the query filters on. -/
structure RoleRow where
  id : Nat
  type : Option String
deriving DecidableEq

/-- `billingRepository.GetUsersWithPenghuniRole`
(`billing_repository.go:43-57`): inner-join of `up_users` with
`up_users_role_lnk` and `up_roles`, keeping rows whose role type is
`"penghuni"`. SQL inner-join semantics: one output row per matching
(user, link, role) combination; there is no DISTINCT in the query. -/
def getUsersWithPenghuniRole (users : List UserRow) (links : List UserRoleLink)
    (roles : List RoleRow) : List UserRow :=
  users.flatMap fun u =>
    (links.filter fun l => l.userId == u.id).flatMap fun l =>
      (roles.filter fun r => r.id == l.roleId && r.type == some "penghuni").map fun _ => u

/-- `billingRepository.GetActiveMonthlySettingBillings`
(`billing_repository.go:60-69`): `WHERE jenis_billing = 'bulanan' AND
is_active = true AND published_at IS NOT NULL`. SQL three-valued logic makes
a NULL `jenis_billing` or `is_active` row fail the equality test, hence the
`some`-comparisons. -/
def getActiveMonthlySettingBillings (settings : List SettingBilling) : List SettingBilling :=
  settings.filter fun s =>
    s.jenisBilling == some "bulanan" && s.isActive == some true && s.publishedAt.isSome

/-- Fuel-indexed batch splitter: consecutive chunks of at most `n` rows.
`fuel` bounds the recursion and is instantiated with the list length. -/
def toBatches : Nat → Nat → List α → List (List α)
  | 0, _, _ => []
  | _ + 1, _, [] => []
  | fuel + 1, n, x :: xs => List.take n (x :: xs) :: toBatches fuel n (List.drop n (x :: xs))

/-- Semantics of gorm's `CreateInBatches(rows, n)` as called at
`billing_repository.go:73` and `:78`: the row list is split into consecutive
batches of at most `n` rows, each inserted in order. -/
def createInBatches (n : Nat) (xs : List α) : List (List α) :=
  toBatches xs.length n xs

/-- Executes batch inserts in order against a storage state `st` (the list of
already-persisted rows). `failsOn` is the storage-failure oracle for a batch
insert: on the first failing batch execution stops, the state keeps only the
batches committed before it, and the flag reports failure; each batch is
atomic as a unit. -/
def runBatches (failsOn : List α → Bool) : List (List α) → List α → List α × Bool
  | [], st => (st, true)
  | b :: bs, st => if failsOn b then (st, false) else runBatches failsOn bs (st ++ b)

/-- `billingRepository.CreateBulkBillings` (`billing_repository.go:72-74`):
`db.CreateInBatches(billings, 100)`, run against state `st` with failure
oracle `failsOn`. -/
def createBulkBillings (failsOn : List Billing → Bool) (billings : List Billing)
    (st : List Billing) : List Billing × Bool :=
  runBatches failsOn (createInBatches 100 billings) st

/-- `billingRepository.CreateBulkBillingProfileLinks`
(`billing_repository.go:77-79`): `db.CreateInBatches(links, 100)`. -/
def createBulkBillingProfileLinks (failsOn : List BillingProfileLink → Bool)
    (links : List BillingProfileLink) (st : List BillingProfileLink) :
    List BillingProfileLink × Bool :=
  runBatches failsOn (createInBatches 100 links) st

/-- Aggregate counters returned to the caller
(`service.BulkBillingResponse`, fields logged at
`billing_handler.go:76-81`). -/
structure BulkBillingResponse where
  totalUsers : Nat
  totalBillings : Nat
  successCount : Nat
  failedCount : Nat
deriving DecidableEq

/-- Accumulator of the in-memory generation pass: constructed billing rows,
constructed profile links, and the attempted / success / failure counters. -/
structure GenAcc where
  billings : List Billing
  links : List BillingProfileLink
  attempted : Nat
  successCount : Nat
  failedCount : Nat
deriving DecidableEq

/-- The (user id, setting) pairs a generation run iterates over: every
eligible user crossed with every active monthly setting. -/
def pairList (userIds : List Nat) (settings : List SettingBilling) :
    List (Nat × SettingBilling) :=
  userIds.flatMap fun u => settings.map fun s => (u, s)

/-- Modelled from the spec: one step of the Billing Generator
(`service.BillingService`, not among the provided sources; spec §4.3). For a
(user, setting) pair it constructs a Billing with the setting's nominal and
the requested period plus a BillingProfileLink to the user's profile
(`profileOf` is the user-to-profile mapping); a pair whose profile mapping
is missing is counted as failed and skipped without aborting the run. -/
def genStep (month year : Int) (profileOf : Nat → Option Nat) (acc : GenAcc)
    (p : Nat × SettingBilling) : GenAcc :=
  match profileOf p.1 with
  | some prof =>
      { acc with
        billings := acc.billings ++ [{ bulan := some month, tahun := some year, nominal := p.2.nominal }]
        links := acc.links ++ [{ profileId := prof }]
        attempted := acc.attempted + 1
        successCount := acc.successCount + 1 }
  | none =>
      { acc with attempted := acc.attempted + 1, failedCount := acc.failedCount + 1 }

/-- Modelled from the spec: the Billing Generator (spec §4.3) — a pure pass
over every (eligible user) × (active setting) pair for the requested
month/year, folding `genStep` from empty accumulators. -/
def generateBillings (userIds : List Nat) (settings : List SettingBilling)
    (month year : Int) (profileOf : Nat → Option Nat) : GenAcc :=
  (pairList userIds settings).foldl (genStep month year profileOf) ⟨[], [], 0, 0, 0⟩

/-- Modelled from the spec: the response shape (spec §4.3 output) — total
users, total billings attempted, success and failure counts. -/
def bulkBillingResponse (userIds : List Nat) (g : GenAcc) : BulkBillingResponse :=
  ⟨userIds.length, g.attempted, g.successCount, g.failedCount⟩

/-- `handler.BulkBillingRequest` (`billing_handler.go:13-17`): decoded JSON
body. An absent `user_ids` field decodes to the empty list (Go nil slice). -/
structure BulkBillingRequest where
  userIds : List Nat
  month : Int
  year : Int

/-- JSON decoding of the optional `user_ids` field: a Go `[]uint` with
`omitempty` decodes a missing field to a nil slice and an explicit `[]` to an
empty slice; both have length zero, so both are the empty list here. -/
def decodeUserIds (field : Option (List Nat)) : List Nat :=
  field.getD []

/-- Gin binding validation of `BulkBillingRequest`
(`billing_handler.go:15-16`): `month` carries `required,min=1,max=12` and
`year` carries `required,min=2020,max=2100`; `ShouldBindJSON` rejects the
request when either bound fails (the `required` zero-value rule is subsumed
by `min=1` resp. `min=2020`). -/
def validBulkBillingRequest (req : BulkBillingRequest) : Bool :=
  1 ≤ req.month && req.month ≤ 12 && 2020 ≤ req.year && req.year ≤ 2100

/-- The relational storage state the billing core touches. -/
structure Db where
  users : List UserRow
  userRoleLinks : List UserRoleLink
  roles : List RoleRow
  settings : List SettingBilling
  billings : List Billing
  profileLinks : List BillingProfileLink
deriving DecidableEq

/-- Dispatch of `CreateBulkMonthlyBillings` (`billing_handler.go:59-65`):
`if len(req.UserIDs) > 0` the caller-supplied identifiers are used verbatim,
otherwise the target set is the penghuni-role query
(`GetUsersWithPenghuniRole`) projected to user identifiers. -/
def resolveTargetUsers (db : Db) (reqUserIds : List Nat) : List Nat :=
  if 0 < reqUserIds.length then reqUserIds
  else (getUsersWithPenghuniRole db.users db.userRoleLinks db.roles).map UserRow.id

/-- Outcome of the bulk-billing HTTP handler: 400 on binding failure, 500 on
a service error, 200 with the count envelope on success. -/
inductive BulkBillingOutcome where
  | badRequest
  | internalError
  | ok (resp : BulkBillingResponse)
deriving DecidableEq

/-- The bulk-generation pipeline end to end: binding validation and dispatch
from `billing_handler.go:45-84`; resolution and setting loading through the
repository queries; generation and persistence ordering modelled from the
spec (§4.3-4.4) since `service.BillingService` is not among the provided
sources. Returns the storage state after the request and the outcome. -/
def createBulkMonthlyBillings (db : Db) (req : BulkBillingRequest)
    (profileOf : Nat → Option Nat) (failB : List Billing → Bool)
    (failL : List BillingProfileLink → Bool) : Db × BulkBillingOutcome :=
  if validBulkBillingRequest req then
    let userIds := resolveTargetUsers db req.userIds
    let settings := getActiveMonthlySettingBillings db.settings
    let g := generateBillings userIds settings req.month req.year profileOf
    let pb := createBulkBillings failB g.billings db.billings
    if pb.2 then
      let pl := createBulkBillingProfileLinks failL g.links db.profileLinks
      if pl.2 then
        ({ db with billings := pb.1, profileLinks := pl.1 },
          .ok (bulkBillingResponse userIds g))
      else
        ({ db with billings := pb.1, profileLinks := pl.1 }, .internalError)
    else
      ({ db with billings := pb.1 }, .internalError)
  else
    (db, .badRequest)

/-- One joined row of the aggregation read path (`GetBillingPenghuni`):
a billing row of an occupant-role user together with the descriptive
profile/role/status fields the report carries through. -/
structure PenghuniBillingRow where
  userId : Nat
  bulan : Int
  tahun : Int
  nominal : Int
  namaPenghuni : String
  statusName : String
deriving DecidableEq

/-- `models.BillingPenghuniResponse` as served by the report endpoint
(`menu_handler.go:168-188`): one row per (user, month, year) with the summed
nominal and representative descriptive fields. -/
structure BillingPenghuniResponse where
  userId : Nat
  bulan : Int
  tahun : Int
  nominal : Int
  namaPenghuni : String
  statusName : String
deriving DecidableEq

/-- Grouping key of an underlying billing row: (user id, month, year). -/
def aggKey (r : PenghuniBillingRow) : Nat × Int × Int :=
  (r.userId, r.bulan, r.tahun)

/-- Grouping key of an aggregated output row. -/
def respKey (a : BillingPenghuniResponse) : Nat × Int × Int :=
  (a.userId, a.bulan, a.tahun)

/-- Modelled from the spec: one insertion step of the Billing Aggregator
(`service.GetBillingPenghuni`, not among the provided sources; spec §4.5).
A row is merged into the first output row sharing its (user, month, year)
key by adding its nominal; if no such row exists a fresh output row is
appended, its descriptive fields taken from this representative row. -/
def addRow (r : PenghuniBillingRow) : List BillingPenghuniResponse → List BillingPenghuniResponse
  | [] => [⟨r.userId, r.bulan, r.tahun, r.nominal, r.namaPenghuni, r.statusName⟩]
  | a :: rest =>
      if respKey a = aggKey r then { a with nominal := a.nominal + r.nominal } :: rest
      else a :: addRow r rest

/-- Modelled from the spec: the Billing Aggregator (spec §4.5) — collapses
the retrieved billing rows of occupant users into one output row per
(user id, month, year) with summed nominal. -/
def getBillingPenghuni (rows : List PenghuniBillingRow) : List BillingPenghuniResponse :=
  rows.foldl (fun acc r => addRow r acc) []

/-! ### Batching lemmas -/

theorem toBatches_nil (fuel n : Nat) : toBatches fuel n ([] : List α) = [] := by
  cases fuel <;> rfl

theorem toBatches_flatten (n : Nat) (hn : 0 < n) :
    ∀ (fuel : Nat) (xs : List α), xs.length ≤ fuel → (toBatches fuel n xs).flatten = xs := by
  intro fuel
  induction fuel with
  | zero =>
      intro xs h
      have hx : xs = [] := List.eq_nil_of_length_eq_zero (Nat.le_zero.mp h)
      subst hx; rfl
  | succ fuel ih =>
      intro xs h
      cases xs with
      | nil => rfl
      | cons x xs =>
          show (List.take n (x :: xs) :: toBatches fuel n (List.drop n (x :: xs))).flatten = x :: xs
          have hlen : (List.drop n (x :: xs)).length ≤ fuel := by
            rw [List.length_drop]
            simp only [List.length_cons] at h ⊢
            omega
          rw [List.flatten_cons, ih _ hlen, List.take_append_drop]

theorem createInBatches_flatten (xs : List α) : (createInBatches 100 xs).flatten = xs :=
  toBatches_flatten 100 (by omega) xs.length xs (Nat.le_refl _)

theorem toBatches_length_le (n : Nat) :
    ∀ (fuel : Nat) (xs : List α), ∀ b ∈ toBatches fuel n xs, b.length ≤ n := by
  intro fuel
  induction fuel with
  | zero => intro xs b hb; cases hb
  | succ fuel ih =>
      intro xs b hb
      cases xs with
      | nil => cases hb
      | cons x xs =>
          rcases List.mem_cons.mp hb with hb | hb
          · subst hb; simp [List.length_take]
          · exact ih _ _ hb

theorem toBatches_dropLast (n : Nat) :
    ∀ (fuel : Nat) (xs : List α), ∀ b ∈ (toBatches fuel n xs).dropLast, b.length = n := by
  intro fuel
  induction fuel with
  | zero => intro xs b hb; cases hb
  | succ fuel ih =>
      intro xs b hb
      cases xs with
      | nil => cases hb
      | cons x xs =>
          simp only [toBatches] at hb
          rcases hrest : toBatches fuel n (List.drop n (x :: xs)) with _ | ⟨r, rs⟩
          · rw [hrest] at hb; cases hb
          · rw [hrest, List.dropLast_cons₂] at hb
            rcases List.mem_cons.mp hb with hb | hb
            · subst hb
              have hd : List.drop n (x :: xs) ≠ [] := by
                intro h0
                rw [h0, toBatches_nil] at hrest
                cases hrest
              have hlt : n < (x :: xs).length := by
                by_contra hle
                push_neg at hle
                exact hd (List.drop_eq_nil_of_le hle)
              simp only [List.length_take]
              omega
            · rw [← hrest] at hb
              exact ih _ _ hb

theorem runBatches_all_ok (failsOn : List α → Bool) (h : ∀ b, failsOn b = false) :
    ∀ (bs : List (List α)) (st : List α), runBatches failsOn bs st = (st ++ bs.flatten, true) := by
  intro bs
  induction bs with
  | nil => intro st; simp [runBatches]
  | cons b bs ih => intro st; simp [runBatches, h b, ih, List.append_assoc]

theorem runBatches_failure (failsOn : List α → Bool) :
    ∀ (bs1 : List (List α)) (bf : List α) (bs2 : List (List α)) (st : List α),
      (∀ b ∈ bs1, failsOn b = false) → failsOn bf = true →
      runBatches failsOn (bs1 ++ bf :: bs2) st = (st ++ bs1.flatten, false) := by
  intro bs1
  induction bs1 with
  | nil => intro bf bs2 st h hf; simp [runBatches, hf]
  | cons b bs ih =>
      intro bf bs2 st h hf
      have hb : failsOn b = false := h b (List.mem_cons_self ..)
      simp [runBatches, hb, ih bf bs2 _ (fun x hx => h x (List.mem_cons_of_mem _ hx)) hf,
        List.append_assoc]

/-- A sample constructed billing row used for concrete instances. -/
def billA : Billing := ⟨some 3, some 2025, some 10000⟩

/-- A second sample billing row. -/
def billB : Billing := ⟨some 3, some 2025, some 20000⟩

/-- A third sample billing row. -/
def billC : Billing := ⟨some 3, some 2025, some 30000⟩

set_option maxRecDepth 10000 in
/-- C7: every list of constructed records handed to bulk persistence is
written in consecutive batches of at most 100 rows whose concatenation is the
input, every batch except possibly the last holding exactly 100 rows; in
particular 250 constructed billing records split into exactly 3 batches of
sizes 100, 100 and 50. -/
theorem batch_persistence_shape (rows : List Billing) :
    (createInBatches 100 rows).flatten = rows
    ∧ (∀ b ∈ createInBatches 100 rows, b.length ≤ 100)
    ∧ (∀ b ∈ (createInBatches 100 rows).dropLast, b.length = 100)
    ∧ (createInBatches 100 (List.replicate 250 billA)).map List.length = [100, 100, 50] := by
  refine ⟨createInBatches_flatten rows, ?_, ?_, ?_⟩
  · exact fun b hb => toBatches_length_le 100 _ _ b hb
  · exact fun b hb => toBatches_dropLast 100 _ _ b hb
  · decide

/-- Witness for C7: the 250-record instance, via `batch_persistence_shape`. -/
theorem batch_persistence_shape_witness :
    (createInBatches 100 (List.replicate 250 billA)).map List.length = [100, 100, 50] :=
  (batch_persistence_shape []).2.2.2

/-- C8: when one batch insert fails, bulk persistence surfaces the failure to
the caller, attempts no batch after the failing one, and keeps the rows
committed by the batches before it (no rollback). -/
theorem batch_failure_aborts (failsOn : List Billing → Bool) (st rows : List Billing)
    (bs1 : List (List Billing)) (bf : List Billing) (bs2 : List (List Billing))
    (hsplit : createInBatches 100 rows = bs1 ++ bf :: bs2)
    (hok : ∀ b ∈ bs1, failsOn b = false) (hf : failsOn bf = true) :
    createBulkBillings failsOn rows st = (st ++ bs1.flatten, false) := by
  unfold createBulkBillings
  rw [hsplit]
  exact runBatches_failure failsOn bs1 bf bs2 st hok hf

set_option maxRecDepth 10000 in
/-- Witness for C8: 250 rows, forced failure on the second batch — the first
100 rows stay persisted, the remaining 150 are never written. -/
theorem batch_failure_aborts_witness :
    createBulkBillings (fun b => decide (billB ∈ b))
        (List.replicate 100 billA ++ (List.replicate 100 billB ++ List.replicate 50 billC)) []
      = (List.replicate 100 billA, false) := by
  have h := batch_failure_aborts (fun b => decide (billB ∈ b)) []
      (List.replicate 100 billA ++ (List.replicate 100 billB ++ List.replicate 50 billC))
      [List.replicate 100 billA] (List.replicate 100 billB) [List.replicate 50 billC]
      (by decide) (by decide) (by decide)
  simpa using h

/-! ### Active-setting loader, validation, dispatch -/

/-- C4: the active-setting loader returns exactly the rows whose cadence is
monthly (`bulanan`), whose active flag is true and whose publication
timestamp is non-null — membership and multiplicity are preserved for such
rows and zero otherwise — and the empty table yields the empty (non-error)
list. -/
theorem active_settings_exact_filter (settings : List SettingBilling) (s : SettingBilling) :
    (s ∈ getActiveMonthlySettingBillings settings ↔
      s ∈ settings ∧ s.jenisBilling = some "bulanan" ∧ s.isActive = some true
        ∧ s.publishedAt ≠ none)
    ∧ (s.jenisBilling = some "bulanan" ∧ s.isActive = some true ∧ s.publishedAt ≠ none →
        (getActiveMonthlySettingBillings settings).count s = settings.count s)
    ∧ (¬ (s.jenisBilling = some "bulanan" ∧ s.isActive = some true ∧ s.publishedAt ≠ none) →
        (getActiveMonthlySettingBillings settings).count s = 0)
    ∧ getActiveMonthlySettingBillings [] = [] := by
  refine ⟨?_, ?_, ?_, rfl⟩
  · simp [getActiveMonthlySettingBillings, List.mem_filter, Option.isSome_iff_ne_none,
      and_assoc]
  · intro h
    unfold getActiveMonthlySettingBillings
    rw [List.count_filter]
    simp [h.1, h.2.1, Option.isSome_iff_ne_none, h.2.2]
  · intro h
    rw [List.count_eq_zero]
    intro hmem
    unfold getActiveMonthlySettingBillings at hmem
    rw [List.mem_filter] at hmem
    apply h
    have := hmem.2
    simp only [Bool.and_eq_true, beq_iff_eq, Option.isSome_iff_ne_none] at this
    exact ⟨this.1.1, this.1.2, this.2⟩

/-- Witness for C4 (the theorem quantifies over an arbitrary setting row):
`setting0` is live and is returned; its deactivated variant is filtered out. -/
def setting0 : SettingBilling := ⟨1, some "bulanan", some true, some 0, some 10000⟩

/-- A deactivated variant of `setting0`. -/
def settingOff : SettingBilling := ⟨2, some "bulanan", some false, some 0, some 10000⟩

theorem active_settings_exact_filter_witness :
    setting0 ∈ getActiveMonthlySettingBillings [setting0, settingOff]
    ∧ (getActiveMonthlySettingBillings [setting0, settingOff]).count settingOff = 0 := by
  constructor
  · exact (active_settings_exact_filter [setting0, settingOff] setting0).1.mpr
      (by refine ⟨by decide, by decide, by decide, by decide⟩)
  · exact (active_settings_exact_filter [setting0, settingOff] settingOff).2.2.1
      (by intro h; exact absurd h.2.1 (by decide))

/-- C5: a bulk-generation request whose month is outside [1,12] or whose
year is outside [2020,2100] is rejected by the binding validation with a 400
before any resolution, loading, generation or persistence work, leaving the
storage state unchanged (no Billing or BillingProfileLink row created). -/
theorem invalid_period_rejected (db : Db) (req : BulkBillingRequest)
    (profileOf : Nat → Option Nat) (failB : List Billing → Bool)
    (failL : List BillingProfileLink → Bool)
    (h : req.month < 1 ∨ 12 < req.month ∨ req.year < 2020 ∨ 2100 < req.year) :
    createBulkMonthlyBillings db req profileOf failB failL = (db, .badRequest) := by
  have hv : ¬ (validBulkBillingRequest req = true) := by
    simp only [validBulkBillingRequest, Bool.and_eq_true, decide_eq_true_eq]
    rintro ⟨⟨⟨h1, h2⟩, h3⟩, h4⟩
    rcases h with h | h | h | h <;> omega
  simp only [createBulkMonthlyBillings]
  rw [if_neg hv]

/-- A sample storage state: one penghuni user (id 1) and one live monthly
setting. -/
def db0 : Db :=
  ⟨[⟨1⟩], [⟨1, 1⟩], [⟨1, some "penghuni"⟩], [setting0], [], []⟩

/-- Witness for C5: month 13 is rejected and the state is unchanged. -/
theorem invalid_period_rejected_witness :
    createBulkMonthlyBillings db0 ⟨[], 13, 2025⟩ (fun u => some u) (fun _ => false)
      (fun _ => false) = (db0, .badRequest) :=
  invalid_period_rejected db0 ⟨[], 13, 2025⟩ (fun u => some u) (fun _ => false)
    (fun _ => false) (by decide)

/-- C6: the bulk handler uses a caller-supplied non-empty identifier list
verbatim as the target set; with no identifiers the target set is the
penghuni-role query projected to user identifiers. -/
theorem target_user_dispatch (db : Db) (reqIds : List Nat) :
    (reqIds ≠ [] → resolveTargetUsers db reqIds = reqIds)
    ∧ (reqIds = [] → resolveTargetUsers db reqIds =
        (getUsersWithPenghuniRole db.users db.userRoleLinks db.roles).map UserRow.id) := by
  constructor
  · intro h
    have hl : 0 < reqIds.length := List.length_pos.mpr h
    simp [resolveTargetUsers, hl]
  · intro h
    subst h
    simp [resolveTargetUsers]

/-- Witness for C6: ids `[5]` are used verbatim (no existence check against
`db0`, which has no user 5); the empty list falls back to the penghuni query
returning user 1. -/
theorem target_user_dispatch_witness :
    resolveTargetUsers db0 [5] = [5]
    ∧ resolveTargetUsers db0 [] =
        (getUsersWithPenghuniRole db0.users db0.userRoleLinks db0.roles).map UserRow.id := by
  exact ⟨(target_user_dispatch db0 [5]).1 (by decide), (target_user_dispatch db0 []).2 rfl⟩

/-- C10: an explicitly present but empty `user_ids` array decodes to the same
list as an omitted field, and the dispatch (testing only `len > 0`) routes
both to the all-penghuni-users path rather than a zero-user generation. -/
theorem empty_userIds_routes_all_users (db : Db) :
    decodeUserIds (some []) = decodeUserIds none
    ∧ resolveTargetUsers db (decodeUserIds (some []))
        = (getUsersWithPenghuniRole db.users db.userRoleLinks db.roles).map UserRow.id
    ∧ resolveTargetUsers db (decodeUserIds none)
        = resolveTargetUsers db (decodeUserIds (some [])) := by
  refine ⟨rfl, ?_, rfl⟩
  simp [resolveTargetUsers, decodeUserIds]

/-! ### Generator counting lemmas -/

theorem foldl_genStep_attempted (m y : Int) (profileOf : Nat → Option Nat) :
    ∀ (ps : List (Nat × SettingBilling)) (acc : GenAcc),
      (ps.foldl (genStep m y profileOf) acc).attempted = acc.attempted + ps.length := by
  intro ps
  induction ps with
  | nil => intro acc; simp
  | cons p ps ih =>
      intro acc
      rw [List.foldl_cons, ih]
      have hstep : (genStep m y profileOf acc p).attempted = acc.attempted + 1 := by
        unfold genStep; cases profileOf p.1 <;> rfl
      rw [hstep, List.length_cons]
      omega

theorem foldl_genStep_counts (m y : Int) (profileOf : Nat → Option Nat) :
    ∀ (ps : List (Nat × SettingBilling)) (acc : GenAcc),
      (ps.foldl (genStep m y profileOf) acc).successCount
        + (ps.foldl (genStep m y profileOf) acc).failedCount
        = acc.successCount + acc.failedCount + ps.length := by
  intro ps
  induction ps with
  | nil => intro acc; simp
  | cons p ps ih =>
      intro acc
      rw [List.foldl_cons, ih]
      have hstep : (genStep m y profileOf acc p).successCount
          + (genStep m y profileOf acc p).failedCount
          = acc.successCount + acc.failedCount + 1 := by
        unfold genStep; cases profileOf p.1 <;> simp <;> omega
      rw [List.length_cons]
      omega

theorem pairList_length (userIds : List Nat) (settings : List SettingBilling) :
    (pairList userIds settings).length = userIds.length * settings.length := by
  induction userIds with
  | nil => simp [pairList]
  | cons u us ih =>
      unfold pairList at ih ⊢
      rw [List.flatMap_cons, List.length_append, List.length_map, ih, List.length_cons]
      ring

/-- C2: a generation run over a non-empty resolved user set, a loaded
setting set and a valid (month, year) attempts exactly |U| × |S| billing
pairs, and the returned counts satisfy
success_count + failed_count = total attempted. -/
theorem generator_pair_counts (userIds : List Nat) (settings : List SettingBilling)
    (m y : Int) (profileOf : Nat → Option Nat) (hU : userIds ≠ [])
    (hm : 1 ≤ m ∧ m ≤ 12) (hy : 2020 ≤ y ∧ y ≤ 2100) :
    (generateBillings userIds settings m y profileOf).attempted
        = userIds.length * settings.length
    ∧ (generateBillings userIds settings m y profileOf).successCount
        + (generateBillings userIds settings m y profileOf).failedCount
        = (generateBillings userIds settings m y profileOf).attempted := by
  unfold generateBillings
  rw [foldl_genStep_attempted, foldl_genStep_counts]
  exact ⟨by simpa using pairList_length userIds settings, by simp⟩

/-- Witness for C2: one user, one setting, March 2025. -/
theorem generator_pair_counts_witness :
    (generateBillings [7] [setting0] 3 2025 (fun u => some u)).attempted
        = [7].length * [setting0].length
    ∧ (generateBillings [7] [setting0] 3 2025 (fun u => some u)).successCount
        + (generateBillings [7] [setting0] 3 2025 (fun u => some u)).failedCount
        = (generateBillings [7] [setting0] 3 2025 (fun u => some u)).attempted :=
  generator_pair_counts [7] [setting0] 3 2025 (fun u => some u) (by decide)
    (by omega) (by omega)

/-! ### Eligible-user resolver: duplicates -/

/-- The block of join output rows one user contributes in
`getUsersWithPenghuniRole`: one copy of the user row per matching
(role-link, penghuni-role) pair. -/
def penghuniUserBlock (links : List UserRoleLink) (roles : List RoleRow) (u : UserRow) :
    List UserRow :=
  (links.filter fun l => l.userId == u.id).flatMap fun l =>
    (roles.filter fun r => r.id == l.roleId && r.type == some "penghuni").map fun _ => u

theorem getUsersWithPenghuniRole_eq_flatMap (users : List UserRow)
    (links : List UserRoleLink) (roles : List RoleRow) :
    getUsersWithPenghuniRole users links roles
      = users.flatMap (penghuniUserBlock links roles) := rfl

theorem mem_penghuniUserBlock {links : List UserRoleLink} {roles : List RoleRow}
    {u x : UserRow} (hx : x ∈ penghuniUserBlock links roles u) : x = u := by
  unfold penghuniUserBlock at hx
  rcases List.mem_flatMap.mp hx with ⟨l, _, hx⟩
  rcases List.mem_map.mp hx with ⟨r, _, h⟩
  exact h.symm

theorem flatMap_block_nodup (links : List UserRoleLink) (roles : List RoleRow) :
    ∀ (users : List UserRow), (users.map UserRow.id).Nodup →
      (∀ u ∈ users, (penghuniUserBlock links roles u).length ≤ 1) →
      ((users.flatMap (penghuniUserBlock links roles)).map UserRow.id).Nodup := by
  intro users
  induction users with
  | nil => intro _ _; simp
  | cons u us ih =>
      intro hu hone
      rw [List.flatMap_cons, List.map_append]
      simp only [List.map_cons, List.nodup_cons] at hu
      have hrest := ih hu.2 (fun v hv => hone v (List.mem_cons_of_mem _ hv))
      have hblock := hone u (List.mem_cons_self ..)
      rcases hb : penghuniUserBlock links roles u with _ | ⟨x, xs⟩
      · simpa using hrest
      · have hx : x = u := mem_penghuniUserBlock (hb ▸ List.mem_cons_self ..)
        have hxs : xs = [] := by
          rw [hb] at hblock
          simp only [List.length_cons] at hblock
          exact List.eq_nil_of_length_eq_zero (by omega)
        subst hx
        subst hxs
        rw [List.map_cons, List.map_nil, List.singleton_append, List.nodup_cons]
        refine ⟨?_, hrest⟩
        intro hmem
        rcases List.mem_map.mp hmem with ⟨v, hv, hvid⟩
        rcases List.mem_flatMap.mp hv with ⟨w, hw, hvw⟩
        have hvw2 : v = w := mem_penghuniUserBlock hvw
        subst hvw2
        exact hu.1 (hvid ▸ List.mem_map_of_mem UserRow.id hw)

/-- C3 counterexample: a user holding two roles of type "penghuni" appears
twice in the resolver's output — the join query has no DISTINCT, so the
claimed duplicate-freeness fails on this storage state. -/
theorem resolver_duplicates_counterexample :
    ¬ (((getUsersWithPenghuniRole [⟨1⟩] [⟨1, 1⟩, ⟨1, 2⟩]
        [⟨1, some "penghuni"⟩, ⟨2, some "penghuni"⟩]).map UserRow.id).Nodup) := by
  decide

/-- C3 amended: provided the users table has pairwise-distinct identifiers
and each user matches at most one (role-link, penghuni-role) pair, the
resolver returns no duplicate user identifier. -/
theorem resolver_nodup_amended (users : List UserRow) (links : List UserRoleLink)
    (roles : List RoleRow) (hu : (users.map UserRow.id).Nodup)
    (hone : ∀ u ∈ users, (penghuniUserBlock links roles u).length ≤ 1) :
    ((getUsersWithPenghuniRole users links roles).map UserRow.id).Nodup := by
  rw [getUsersWithPenghuniRole_eq_flatMap]
  exact flatMap_block_nodup links roles users hu hone

/-- Witness for the amended C3: two distinct users, one of whom holds the
single penghuni role link. -/
theorem resolver_nodup_amended_witness :
    ((getUsersWithPenghuniRole [⟨1⟩, ⟨2⟩] [⟨1, 1⟩] [⟨1, some "penghuni"⟩]).map
      UserRow.id).Nodup :=
  resolver_nodup_amended [⟨1⟩, ⟨2⟩] [⟨1, 1⟩] [⟨1, some "penghuni"⟩] (by decide) (by decide)

/-! ### Aggregator lemmas -/

/-- Total nominal the aggregated output assigns to a key. -/
def keyNominal (k : Nat × Int × Int) (acc : List BillingPenghuniResponse) : Int :=
  ((acc.filter fun a => respKey a == k).map BillingPenghuniResponse.nominal).sum

/-- Total nominal of the underlying billing rows sharing a key. -/
def rowsNominal (k : Nat × Int × Int) (rows : List PenghuniBillingRow) : Int :=
  ((rows.filter fun r => aggKey r == k).map PenghuniBillingRow.nominal).sum

theorem keyNominal_cons (k : Nat × Int × Int) (a : BillingPenghuniResponse)
    (rest : List BillingPenghuniResponse) :
    keyNominal k (a :: rest)
      = (if respKey a = k then a.nominal else 0) + keyNominal k rest := by
  unfold keyNominal
  by_cases h : respKey a = k <;> simp [List.filter_cons, h]

theorem rowsNominal_cons (k : Nat × Int × Int) (r : PenghuniBillingRow)
    (rows : List PenghuniBillingRow) :
    rowsNominal k (r :: rows)
      = (if aggKey r = k then r.nominal else 0) + rowsNominal k rows := by
  unfold rowsNominal
  by_cases h : aggKey r = k <;> simp [List.filter_cons, h]

theorem addRow_map_respKey (r : PenghuniBillingRow) :
    ∀ (acc : List BillingPenghuniResponse),
      (addRow r acc).map respKey
        = if aggKey r ∈ acc.map respKey then acc.map respKey
          else acc.map respKey ++ [aggKey r] := by
  intro acc
  induction acc with
  | nil => simp [addRow, respKey, aggKey]
  | cons a rest ih =>
      by_cases h : respKey a = aggKey r
      · have heq : addRow r (a :: rest) = { a with nominal := a.nominal + r.nominal } :: rest := by
          simp only [addRow]
          rw [if_pos h]
        rw [heq, List.map_cons, List.map_cons]
        have hkeep : respKey { a with nominal := a.nominal + r.nominal } = respKey a := rfl
        rw [hkeep, if_pos (by rw [List.mem_cons]; exact Or.inl h.symm)]
      · have h2 : ¬ (aggKey r = respKey a) := fun hh => h hh.symm
        have heq : addRow r (a :: rest) = a :: addRow r rest := by
          simp only [addRow]
          rw [if_neg h]
        rw [heq, List.map_cons, List.map_cons, ih]
        by_cases hmem : aggKey r ∈ rest.map respKey
        · rw [if_pos hmem, if_pos (by rw [List.mem_cons]; exact Or.inr hmem)]
        · rw [if_neg hmem, if_neg ?hno, List.cons_append]
          case hno =>
            rw [List.mem_cons]
            rintro (hh | hh)
            · exact h2 hh
            · exact hmem hh

theorem addRow_nodup (r : PenghuniBillingRow) (acc : List BillingPenghuniResponse)
    (h : (acc.map respKey).Nodup) : ((addRow r acc).map respKey).Nodup := by
  rw [addRow_map_respKey]
  by_cases hmem : aggKey r ∈ acc.map respKey
  · simpa [hmem] using h
  · rw [if_neg hmem]
    refine List.Nodup.append h (List.nodup_singleton _) ?_
    intro x hx hx2
    rw [List.mem_singleton] at hx2
    exact hmem (hx2 ▸ hx)

theorem addRow_keyNominal (r : PenghuniBillingRow) (k : Nat × Int × Int) :
    ∀ (acc : List BillingPenghuniResponse),
      keyNominal k (addRow r acc)
        = keyNominal k acc + (if aggKey r = k then r.nominal else 0) := by
  intro acc
  induction acc with
  | nil =>
      show keyNominal k [⟨r.userId, r.bulan, r.tahun, r.nominal, r.namaPenghuni, r.statusName⟩]
        = keyNominal k [] + (if aggKey r = k then r.nominal else 0)
      rw [keyNominal_cons]
      have hkey : respKey ⟨r.userId, r.bulan, r.tahun, r.nominal, r.namaPenghuni, r.statusName⟩
          = aggKey r := rfl
      rw [hkey]
      simp [keyNominal]
  | cons a rest ih =>
      by_cases h : respKey a = aggKey r
      · simp only [addRow, if_pos h]
        rw [keyNominal_cons, keyNominal_cons]
        have hkeep : respKey { a with nominal := a.nominal + r.nominal } = respKey a := rfl
        rw [hkeep]
        have hnom : ({ a with nominal := a.nominal + r.nominal } :
            BillingPenghuniResponse).nominal = a.nominal + r.nominal := rfl
        rw [hnom]
        by_cases hk : respKey a = k
        · rw [if_pos hk, if_pos hk, if_pos (h.symm.trans hk)]
          omega
        · rw [if_neg hk, if_neg hk, if_neg (fun hh => hk (h.trans hh))]
          omega
      · simp only [addRow, if_neg h]
        rw [keyNominal_cons, keyNominal_cons, ih]
        omega

theorem foldl_addRow_nodup :
    ∀ (rows : List PenghuniBillingRow) (acc : List BillingPenghuniResponse),
      (acc.map respKey).Nodup →
      ((rows.foldl (fun acc r => addRow r acc) acc).map respKey).Nodup := by
  intro rows
  induction rows with
  | nil => intro acc h; simpa using h
  | cons r rows ih =>
      intro acc h
      rw [List.foldl_cons]
      exact ih _ (addRow_nodup r acc h)

theorem foldl_addRow_mem_keys :
    ∀ (rows : List PenghuniBillingRow) (acc : List BillingPenghuniResponse)
      (k : Nat × Int × Int),
      k ∈ (rows.foldl (fun acc r => addRow r acc) acc).map respKey
        ↔ (k ∈ acc.map respKey ∨ k ∈ rows.map aggKey) := by
  intro rows
  induction rows with
  | nil => intro acc k; simp
  | cons r rows ih =>
      intro acc k
      rw [List.foldl_cons, ih, addRow_map_respKey, List.map_cons]
      by_cases hmem : aggKey r ∈ acc.map respKey
      · rw [if_pos hmem]
        rw [List.mem_cons]
        constructor
        · rintro (h | h)
          · exact Or.inl h
          · exact Or.inr (Or.inr h)
        · rintro (h | h | h)
          · exact Or.inl h
          · exact Or.inl (h ▸ hmem)
          · exact Or.inr h
      · rw [if_neg hmem]
        rw [List.mem_cons, List.mem_append, List.mem_singleton]
        tauto

theorem foldl_addRow_keyNominal :
    ∀ (rows : List PenghuniBillingRow) (acc : List BillingPenghuniResponse)
      (k : Nat × Int × Int),
      keyNominal k (rows.foldl (fun acc r => addRow r acc) acc)
        = keyNominal k acc + rowsNominal k rows := by
  intro rows
  induction rows with
  | nil => intro acc k; simp [rowsNominal, keyNominal]
  | cons r rows ih =>
      intro acc k
      rw [List.foldl_cons, ih, addRow_keyNominal, rowsNominal_cons]
      omega

theorem filter_key_singleton :
    ∀ (l : List BillingPenghuniResponse), (l.map respKey).Nodup →
      ∀ a ∈ l, l.filter (fun b => respKey b == respKey a) = [a] := by
  intro l
  induction l with
  | nil => intro _ a ha; cases ha
  | cons x t ih =>
      intro h a ha
      simp only [List.map_cons, List.nodup_cons] at h
      rcases List.mem_cons.mp ha with rfl | ha
      · rw [List.filter_cons_of_pos (by simp)]
        have hnil : t.filter (fun b => respKey b == respKey a) = [] := by
          rw [List.filter_eq_nil_iff]
          intro b hb
          simp only [beq_iff_eq]
          intro heq
          exact h.1 (heq ▸ List.mem_map_of_mem respKey hb)
        rw [hnil]
      · have hne : ¬ (respKey x == respKey a) = true := by
          simp only [beq_iff_eq]
          intro heq
          exact h.1 (heq ▸ List.mem_map_of_mem respKey ha)
        rw [List.filter_cons, if_neg hne, ih h.2 a ha]

/-- C1: the Billing Aggregator emits exactly one output row per
(user, month, year) key occurring among the retrieved billing rows, that
row's nominal is the arithmetic sum of the nominals of all underlying rows
sharing the key (no row omitted), and the spec's example — billings
[10000, 5000] of user 1 in (3, 2025) — aggregates to nominal 15000. -/
theorem aggregator_groups_and_sums (rows : List PenghuniBillingRow) :
    ((getBillingPenghuni rows).map respKey).Nodup
    ∧ (∀ k, k ∈ (getBillingPenghuni rows).map respKey ↔ k ∈ rows.map aggKey)
    ∧ (∀ a ∈ getBillingPenghuni rows,
        a.nominal = ((rows.filter fun r => aggKey r == respKey a).map
          PenghuniBillingRow.nominal).sum)
    ∧ getBillingPenghuni
        [⟨1, 3, 2025, 10000, "A", "unpaid"⟩, ⟨1, 3, 2025, 5000, "A", "unpaid"⟩]
        = [⟨1, 3, 2025, 15000, "A", "unpaid"⟩] := by
  have hnodup : ((getBillingPenghuni rows).map respKey).Nodup :=
    foldl_addRow_nodup rows [] (by simp)
  refine ⟨hnodup, ?_, ?_, by decide⟩
  · intro k
    have h := foldl_addRow_mem_keys rows [] k
    simpa [getBillingPenghuni] using h
  · intro a ha
    have hfold := foldl_addRow_keyNominal rows [] (respKey a)
    have hzero : keyNominal (respKey a) ([] : List BillingPenghuniResponse) = 0 := rfl
    have hval : keyNominal (respKey a) (getBillingPenghuni rows) = a.nominal := by
      unfold keyNominal
      rw [filter_key_singleton (getBillingPenghuni rows) hnodup a ha]
      simp
    have : a.nominal = rowsNominal (respKey a) rows := by
      rw [← hval]
      unfold getBillingPenghuni
      rw [hfold, hzero, zero_add]
    simpa [rowsNominal] using this

/-- Witness for C1: the spec's concrete instance, via
`aggregator_groups_and_sums`. -/
theorem aggregator_groups_and_sums_witness :
    getBillingPenghuni
        [⟨1, 3, 2025, 10000, "A", "unpaid"⟩, ⟨1, 3, 2025, 5000, "A", "unpaid"⟩]
      = [⟨1, 3, 2025, 15000, "A", "unpaid"⟩] :=
  (aggregator_groups_and_sums []).2.2.2

/-! ### Non-idempotence of bulk generation -/

theorem runBatches_const_false (bs : List (List α)) (st : List α) :
    runBatches (fun _ => false) bs st = (st ++ bs.flatten, true) :=
  runBatches_all_ok _ (fun _ => rfl) bs st

theorem createBulkMonthlyBillings_all_ok (db : Db) (req : BulkBillingRequest)
    (profileOf : Nat → Option Nat) (hv : validBulkBillingRequest req = true) :
    createBulkMonthlyBillings db req profileOf (fun _ => false) (fun _ => false)
      = ({ db with
            billings := db.billings
              ++ (generateBillings (resolveTargetUsers db req.userIds)
                  (getActiveMonthlySettingBillings db.settings) req.month req.year
                  profileOf).billings
            profileLinks := db.profileLinks
              ++ (generateBillings (resolveTargetUsers db req.userIds)
                  (getActiveMonthlySettingBillings db.settings) req.month req.year
                  profileOf).links },
          .ok (bulkBillingResponse (resolveTargetUsers db req.userIds)
            (generateBillings (resolveTargetUsers db req.userIds)
              (getActiveMonthlySettingBillings db.settings) req.month req.year
              profileOf))) := by
  simp only [createBulkMonthlyBillings, hv, if_true, createBulkBillings,
    createBulkBillingProfileLinks, runBatches_const_false, createInBatches_flatten]

/-- C9: bulk generation is not idempotent — for every storage state, valid
request and profile mapping for which at least one pair is successfully
constructed, running the handler twice leaves some Billing row present at
least twice (a duplicate for its (user, setting, month, year)), a state
different from the one a single invocation produces. -/
theorem bulk_generation_not_idempotent (db : Db) (req : BulkBillingRequest)
    (profileOf : Nat → Option Nat) (hv : validBulkBillingRequest req = true)
    (hgen : (generateBillings (resolveTargetUsers db req.userIds)
        (getActiveMonthlySettingBillings db.settings) req.month req.year
        profileOf).billings ≠ []) :
    (∃ b, 2 ≤ (((createBulkMonthlyBillings
        ((createBulkMonthlyBillings db req profileOf (fun _ => false) (fun _ => false)).1)
        req profileOf (fun _ => false) (fun _ => false)).1).billings.count b))
    ∧ (((createBulkMonthlyBillings
        ((createBulkMonthlyBillings db req profileOf (fun _ => false) (fun _ => false)).1)
        req profileOf (fun _ => false) (fun _ => false)).1).billings
      ≠ ((createBulkMonthlyBillings db req profileOf (fun _ => false)
          (fun _ => false)).1).billings) := by
  have h1 := createBulkMonthlyBillings_all_ok db req profileOf hv
  rw [h1]
  have h2 := createBulkMonthlyBillings_all_ok
    ({ db with
        billings := db.billings
          ++ (generateBillings (resolveTargetUsers db req.userIds)
              (getActiveMonthlySettingBillings db.settings) req.month req.year
              profileOf).billings
        profileLinks := db.profileLinks
          ++ (generateBillings (resolveTargetUsers db req.userIds)
              (getActiveMonthlySettingBillings db.settings) req.month req.year
              profileOf).links }) req profileOf hv
  have hres : resolveTargetUsers
      ({ db with
          billings := db.billings
            ++ (generateBillings (resolveTargetUsers db req.userIds)
                (getActiveMonthlySettingBillings db.settings) req.month req.year
                profileOf).billings
          profileLinks := db.profileLinks
            ++ (generateBillings (resolveTargetUsers db req.userIds)
                (getActiveMonthlySettingBillings db.settings) req.month req.year
                profileOf).links }) req.userIds
    = resolveTargetUsers db req.userIds := rfl
  rw [hres] at h2
  rw [h2]
  obtain ⟨b, hb⟩ := List.exists_mem_of_ne_nil _ hgen
  constructor
  · refine ⟨b, ?_⟩
    simp only [List.count_append]
    have hpos : 0 < (generateBillings (resolveTargetUsers db req.userIds)
        (getActiveMonthlySettingBillings db.settings) req.month req.year
        profileOf).billings.count b := List.count_pos_iff.mpr hb
    omega
  · intro heq
    have hlen := congrArg List.length heq
    simp only [List.length_append] at hlen
    exact hgen (List.eq_nil_of_length_eq_zero (by omega))

/-- Witness for C9: one penghuni user, one live setting, March 2025 run
twice against `db0`. -/
theorem bulk_generation_not_idempotent_witness :
    ∃ b, 2 ≤ (((createBulkMonthlyBillings
        ((createBulkMonthlyBillings db0 ⟨[], 3, 2025⟩ (fun u => some u) (fun _ => false)
          (fun _ => false)).1)
        ⟨[], 3, 2025⟩ (fun u => some u) (fun _ => false) (fun _ => false)).1).billings.count b) :=
  (bulk_generation_not_idempotent db0 ⟨[], 3, 2025⟩ (fun u => some u) (by decide)
    (by decide)).1
